import Mathlib

/-!
Verification development for the marker-to-slides converter
(`marker_to_slides_converter.py`): a shallow embedding of the block
classifier, the tree flattener (`extract_elements_from_marker`), the slide
packer (`assemble_slides`) and the document-title resolution
(`create_document_json`), together with theorems about them.

String handling is done over `List Char` with explicitly total functions so
every definition evaluates by kernel reduction.
-/

namespace MarkerConv

/-! ### Character-list string utilities (models of the Python `str` methods used) -/

/-- Strip leading and trailing whitespace from a character list
(models Python `str.strip()` as used implicitly by text cleanup). -/
def chTrim (l : List Char) : List Char :=
  ((l.dropWhile Char.isWhitespace).reverse.dropWhile Char.isWhitespace).reverse

/-- Models Python `str.strip()` on a `String`. -/
def sTrim (s : String) : String := String.mk (chTrim s.data)

/-- Models Python `str.lower()` (ASCII; the source only compares ASCII type names). -/
def sToLower (s : String) : String := String.mk (s.data.map Char.toLower)

/-- Remove every occurrence of the pattern `"group"` from a character list,
left to right, non-overlapping (models `str.replace("group", "")` after
lowering, as done in the table/code/equation branch of the flattener). -/
def removeGroup : List Char → List Char
  | 'g' :: 'r' :: 'o' :: 'u' :: 'p' :: rest => removeGroup rest
  | c :: rest => c :: removeGroup rest
  | [] => []

/-- Models `str.replace("group", "")` on a `String`. -/
def sRemoveGroup (s : String) : String := String.mk (removeGroup s.data)

/-- Split a character list at every occurrence of `sep`
(models Python `str.split(sep)` for a one-character separator). -/
def chSplit (sep : Char) : List Char → List (List Char)
  | [] => [[]]
  | c :: rest =>
    let r := chSplit sep rest
    if c = sep then [] :: r
    else
      match r with
      | h :: t => (c :: h) :: t
      | [] => [[c]]

/-- Models Python `s.split('/')`. -/
def sSplitSlash (s : String) : List String := (chSplit '/' s.data).map String.mk

/-- Join a list of strings with a newline separator
(models Python `"\n".join(...)`). -/
def joinNL : List String → String
  | [] => ""
  | [s] => s
  | s :: rest => s ++ "\n" ++ joinNL rest

/-- Digit-run parser used by `pyInt?`: consumes decimal digits with single
underscores allowed between digits, accumulating the value
(models the tail of a CPython integer literal). -/
def pyDigitsGo : Nat → List Char → Option Nat
  | acc, [] => some acc
  | acc, c :: rest =>
    if c.isDigit then pyDigitsGo (acc * 10 + (c.toNat - 48)) rest
    else if c = '_' then
      match rest with
      | d :: rest2 =>
        if d.isDigit then pyDigitsGo (acc * 10 + (d.toNat - 48)) rest2 else none
      | [] => none
    else none

/-- Parse a nonempty run of decimal digits (single underscores permitted
between digits, none leading or trailing). -/
def pyDigits? : List Char → Option Nat
  | [] => none
  | c :: rest => if c.isDigit then pyDigitsGo (c.toNat - 48) rest else none

/-- Models CPython `int(s)` on ASCII input: surrounding whitespace is
stripped, an optional `+`/`-` sign is accepted, then a nonempty digit run
(underscore-separated digits allowed); anything else raises `ValueError`,
modelled as `none`. -/
def pyInt? (s : String) : Option Int :=
  match chTrim s.data with
  | '-' :: rest => (pyDigits? rest).map (fun n => -(n : Int))
  | '+' :: rest => (pyDigits? rest).map (fun n => (n : Int))
  | cs => (pyDigits? cs).map (fun n => (n : Int))

/-! ### Data model -/

/-- A node of the Marker block tree (the converter's input). Fields mirror
the JSON keys read by the source: `block_type`, `id`, `html`, `images`
(an id-to-base64 mapping, modelled as an association list), `section_hierarchy`
(read but unused by the code) and `children`. The `polygon` field is pass-through
diagnostic data never examined by the logic under verification, so it is omitted. -/
inductive Block where
  | mk (bt : String) (id : Option String) (html : Option String)
      (images : List (String × String)) (sh : List (String × String))
      (children : List Block)

def Block.block_type : Block → String
  | .mk t _ _ _ _ _ => t

def Block.id : Block → Option String
  | .mk _ i _ _ _ _ => i

def Block.html : Block → Option String
  | .mk _ _ h _ _ _ => h

def Block.images : Block → List (String × String)
  | .mk _ _ _ im _ _ => im

def Block.section_hierarchy : Block → List (String × String)
  | .mk _ _ _ _ sh _ => sh

def Block.children : Block → List Block
  | .mk _ _ _ _ _ ch => ch

/-- An intermediate Element produced by `extract_elements_from_marker`.
The Python dict's `"id"` key (a fresh `uuid4`) and the pass-through
`"marker_polygon"` are omitted; all fields inspected by later stages are kept.
`original_page_number` is an `Int` because the code computes
`int(parts[2]) + 1`, which can be non-positive. -/
structure Element where
  type : String
  content : String
  imageData_b64 : Option String
  original_page_number : Int
  marker_block_type : String
  deriving DecidableEq

/-- An element view stamped onto a finalized slide (the dicts built inside
`finalize_slide`); the fresh uuid is omitted. -/
structure SlideElement where
  type : String
  content : String
  imageData : Option String
  position : Nat
  deriving DecidableEq

/-- A finalized slide (the dicts appended to `slides_data`); the fresh uuid
and the wall-clock timestamp are omitted. -/
structure Slide where
  slideNumber : Nat
  elements : List SlideElement
  sourcePageNumbers : List Int
  deriving DecidableEq

/-! ### Configuration constants (module-level constants of the source) -/

def IGNORED_BLOCK_TYPES : List String :=
  ["PageFooter", "PageHeader", "Footnote", "Form", "Handwriting", "TableOfContents"]

def VISUAL_IMAGE_BLOCK_TYPES : List String :=
  ["Figure", "Picture", "FigureGroup", "PictureGroup"]

def MAX_TEXT_ELEMENTS_PER_SLIDE : Nat := 3

def MAX_IMAGES_PER_SLIDE : Nat := 2

def MAX_TEXT_WITH_IMAGES : Nat := 1

/-! ### Text cleanup -/

/-- Modelled from the spec: the HTML-to-plain-text cleanup capability
(`clean_text(html) -> string`); the source's `get_clean_text` delegates to the
external BeautifulSoup library, which is out of scope per the spec. A missing
or empty html field yields `""`; on markup-free text (all this development
evaluates it on) BeautifulSoup's `get_text(strip=True)` returns the text with
surrounding whitespace stripped, which is what this model computes. -/
def get_clean_text (html : Option String) : String :=
  match html with
  | none => ""
  | some s => sTrim s

/-! ### Block classifier (`get_block_semantic_type`, source lines 44-69) -/

/-- Shallow embedding of `get_block_semantic_type`. Note: in the source the
`SectionHeader` branch body is literally `pass  # Placeholder for brevity`,
so control falls through every `elif` and the function returns `None`
for every SectionHeader block; `section_hierarchy` is read into a local
variable but never used. -/
def get_block_semantic_type (b : Block) : Option String :=
  if b.block_type = "SectionHeader" then none
  else if b.block_type = "Text" ∨ b.block_type = "TextInlineMath" then some "paragraph"
  else if b.block_type ∈ VISUAL_IMAGE_BLOCK_TYPES then some "image"
  else if b.block_type = "ListGroup" then some "list"
  else if b.block_type = "ListItem" then some "list_item_internal"
  else if b.block_type = "Table" ∨ b.block_type = "TableGroup" then some "table"
  else if b.block_type = "Code" then some "code"
  else if b.block_type = "Equation" then some "equation"
  else if b.block_type = "Caption" then some "paragraph"
  else none

/-- The lexicographically smallest key of an association list (Python
`min(d.keys())` over a non-empty dict; `none` for an absent or empty
mapping). -/
def smallestKey : List (String × String) → Option String
  | [] => none
  | (k, _) :: rest =>
    match smallestKey rest with
    | none => some k
    | some k2 => some (if compare k2 k = Ordering.lt then k2 else k)

/-- Modelled from the spec: the SectionHeader arm of the classifier. Its body
is missing from src — source lines 51-52 read
`# ... (rest of the function as provided previously) ...` and
`pass  # Placeholder for brevity`, so the real branch lives in another draft
of the repository. Per the spec's mapping table: with `section_hierarchy`
present, use the lexicographically smallest level key — level "1" or "2"
gives heading, any other key gives subheading; an absent hierarchy gives
heading. -/
def sectionHeaderKind (b : Block) : Option String :=
  if b.block_type = "SectionHeader" then
    match smallestKey b.section_hierarchy with
    | none => some "heading"
    | some k => if k = "1" ∨ k = "2" then some "heading" else some "subheading"
  else none

/-! ### Page numbering (source lines 102-110) -/

/-- Page-number computation for a Page block at 0-based position
`page_num_idx` with id `pid`: default is the 1-based position; if the id
splits on `/` into more than two parts with second part `"page"`, the third
part is fed to `int(...)` and `+ 1` is used; a `ValueError` keeps the default. -/
def pageNumberOf (page_num_idx : Nat) (pid : Option String) : Int :=
  match pid with
  | none => (page_num_idx : Int) + 1
  | some s =>
    if s = "" then (page_num_idx : Int) + 1
    else if (sSplitSlash s).length > 2 ∧ (sSplitSlash s).getD 1 "" = "page" then
      match pyInt? ((sSplitSlash s).getD 2 "") with
      | some i => i + 1
      | none => (page_num_idx : Int) + 1
    else (page_num_idx : Int) + 1

/-! ### Tree flattener (`extract_elements_from_marker`, source lines 74-238) -/

/-- Mutable state threaded through the flattening pass: the accumulated
elements and the two "already processed" id sets (`processed_list_group_ids`
and `processed_parent_group_ids` in the source; Python sets modelled as
duplicate-free lists). -/
structure ExtractState where
  all_elements : List Element
  processed_list_group_ids : List String
  processed_parent_group_ids : List String
  deriving DecidableEq

def initExtract : ExtractState := ⟨[], [], []⟩

/-- Python truthiness of an optional string (`None` and `""` are falsy). -/
def strTruthy : Option String → Bool
  | none => false
  | some s => s ≠ ""

/-- `block_id in <set>` where `block_id` may be `None` (never a member). -/
def idMem (id? : Option String) (l : List String) : Bool :=
  match id? with
  | some i => l.contains i
  | none => false

/-- `if block_id: <set>.add(block_id)` — falsy ids (absent or empty) are not
added; adding an already-present id leaves the set unchanged. -/
def addId (id? : Option String) (l : List String) : List String :=
  match id? with
  | some i => if i = "" ∨ l.contains i then l else l ++ [i]
  | none => l

/-- The Python loop `for sub_child in children: if p(sub_child): x = sub_child`
keeps the LAST matching child. -/
def lastChild? (p : Block → Bool) (children : List Block) : Option Block :=
  children.foldl (fun acc c => if p c then some c else acc) none

/-- Payload lookup for a Figure/Picture block: the block's own id must be a
key of the block's own `images` mapping
(`block.get("images") and isinstance(..., dict) and block_id in block["images"]`;
a `None` id is never a key). -/
def figPayload? (c : Block) : Option String :=
  match c.id with
  | some k => c.images.lookup k
  | none => none

/-- The guarded append at source lines 225-234: an element is created only
when `(content or image_data_b64) and slide_element_type` is truthy. -/
def emitElement (pageNum : Int) (b : Block) (st : ExtractState)
    (ty? : Option String) (content : String) (img : Option String) : ExtractState :=
  match ty? with
  | some t =>
    if content ≠ "" ∨ strTruthy img then
      { st with all_elements := st.all_elements ++
          [{ type := t, content := content, imageData_b64 := img,
             original_page_number := pageNum, marker_block_type := b.block_type }] }
    else st
  | none => st

/-- The caption text of a figure/picture group (source lines 159-166): the
last Caption child's cleaned html when one exists, else the group's own
cleaned html unless it equals the group's block-type name case-insensitively. -/
def groupContent (b : Block) (caption_child : Option Block) : String :=
  match caption_child with
  | some cc => get_clean_text cc.html
  | none =>
    if sToLower (get_clean_text b.html) ≠ sToLower b.block_type
    then get_clean_text b.html else ""

/-- FigureGroup/PictureGroup handling (source lines 143-172): the payload is
resolved through the LAST Figure/Picture child; on success the group id is
marked processed, on failure the classification is retracted
(`slide_element_type = None`, so nothing is emitted even when a caption gave
text). -/
def processGroupBlock (pageNum : Int) (st : ExtractState) (b : Block) : ExtractState :=
  match lastChild? (fun c => c.block_type = "Figure" ∨ c.block_type = "Picture") b.children with
  | none => emitElement pageNum b st (some "image") "" none
  | some fc =>
    if strTruthy (figPayload? fc) then
      emitElement pageNum b
        { st with processed_parent_group_ids := addId b.id st.processed_parent_group_ids }
        (some "image")
        (groupContent b (lastChild? (fun c => c.block_type = "Caption") b.children))
        (figPayload? fc)
    else
      emitElement pageNum b st none
        (groupContent b (lastChild? (fun c => c.block_type = "Caption") b.children))
        (figPayload? fc)

/-- Direct Figure/Picture handling (source lines 174-183): payload looked up
by the block's own id in its own `images` mapping; its own cleaned html is a
potential caption, discarded when it equals the block-type name. -/
def processDirectFigure (pageNum : Int) (st : ExtractState) (b : Block) : ExtractState :=
  match figPayload? b with
  | some p =>
    emitElement pageNum b st (some "image")
      (if sToLower (get_clean_text b.html) ≠ sToLower b.block_type
       then get_clean_text b.html else "")
      (some p)
  | none => emitElement pageNum b st none "" none

/-- Image-block dispatch (source lines 141-185): groups, then direct
Figure/Picture, then the defensive "should not happen" retraction. -/
def processImageBlock (pageNum : Int) (st : ExtractState) (b : Block) : ExtractState :=
  if b.block_type = "FigureGroup" ∨ b.block_type = "PictureGroup" then
    processGroupBlock pageNum st b
  else if b.block_type = "Figure" ∨ b.block_type = "Picture" then
    processDirectFigure pageNum st b
  else
    emitElement pageNum b st none "" none

/-- Table/Code/Equation handling (source lines 188-200): cleaned html,
cleared when it equals the lowered block-type name with `"group"` removed;
if still empty, the newline-join of the children's cleaned html, skipping
empty strings. -/
def processStructuralBlock (pageNum : Int) (st : ExtractState) (b : Block)
    (ty? : Option String) : ExtractState :=
  let content := get_clean_text b.html
  let content :=
    if sToLower content = sRemoveGroup (sToLower b.block_type) then "" else content
  let content :=
    if content = "" ∧ b.children.isEmpty = false then
      joinNL (((b.children.map (fun c => get_clean_text c.html)).filter (· ≠ "")))
    else content
  emitElement pageNum b st ty? content none

/-- ListGroup handling (source lines 204-214): skip if the id was already
processed; content is the newline-join of `"- "`-prefixed cleaned html of the
ListItem children; the id is then marked processed (when truthy). -/
def processListBlock (pageNum : Int) (st : ExtractState) (b : Block) : ExtractState :=
  if idMem b.id st.processed_list_group_ids then st
  else
    let items := b.children.filter (fun c => c.block_type = "ListItem")
    let content := joinNL (items.map (fun c => "- " ++ get_clean_text c.html))
    let st' := { st with
      processed_list_group_ids := addId b.id st.processed_list_group_ids }
    emitElement pageNum b st' (some "list") content none

/-- One iteration of the per-page block loop (source lines 126-235):
skip ignored types and already-consumed group ids, then dispatch on the
classifier's result exactly as the source's `if`/`elif` chain does. -/
def processPageBlock (pageNum : Int) (st : ExtractState) (b : Block) : ExtractState :=
  if b.block_type ∈ IGNORED_BLOCK_TYPES ∨ idMem b.id st.processed_parent_group_ids then st
  else if get_block_semantic_type b = some "image" then processImageBlock pageNum st b
  else if get_block_semantic_type b = some "table" ∨ get_block_semantic_type b = some "code" ∨
          get_block_semantic_type b = some "equation" then
    processStructuralBlock pageNum st b (get_block_semantic_type b)
  else if get_block_semantic_type b = some "list" then processListBlock pageNum st b
  else if get_block_semantic_type b = some "paragraph" ∨
          get_block_semantic_type b = some "heading" then
    emitElement pageNum b st (get_block_semantic_type b) (get_clean_text b.html) none
  else st

/-- One iteration of the page loop (source lines 96-236): non-Page entries
are skipped with a warning; otherwise the page number is computed and the
page's direct children are processed in order. -/
def processPage (idx : Nat) (st : ExtractState) (page : Block) : ExtractState :=
  if page.block_type = "Page" then
    page.children.foldl (processPageBlock (pageNumberOf idx page.id)) st
  else st

/-- The converter's input: either a JSON array of blocks or a single JSON
object (Python `list` / `dict`); other JSON shapes are rejected before the
page loop and are not modelled. -/
inductive MarkerInput where
  | list (pages : List Block)
  | dict (root : Block)

/-- Root-shape dispatch (source lines 79-94): a list is taken as the page
list; a Document dict contributes its children; a Page dict becomes a
singleton list; any other dict yields no pages (warning only). -/
def pagesToProcess : MarkerInput → List Block
  | .list ps => ps
  | .dict b =>
    if b.block_type = "Document" then b.children
    else if b.block_type = "Page" then [b]
    else []

/-- The whole flattening pass, returning the final mutable state. -/
def extractState (input : MarkerInput) : ExtractState :=
  (pagesToProcess input).enum.foldl (fun st ip => processPage ip.1 st ip.2) initExtract

/-- `extract_elements_from_marker`: the ordered element list produced by the
flattening pass. -/
def extract_elements_from_marker (input : MarkerInput) : List Element :=
  (extractState input).all_elements

/-! ### Slide packer (`assemble_slides`, source lines 240-352) -/

/-- Insertion of one value into a sorted list of integers. -/
def insertSorted (x : Int) : List Int → List Int
  | [] => [x]
  | y :: ys => if x ≤ y then x :: y :: ys else y :: insertSorted x ys

/-- Ascending sort of the source-page set (models
`sorted(list(current_slide_source_pages))`). -/
def sortInts (l : List Int) : List Int := l.foldr insertSorted []

/-- The packer's accumulator: the finalized slides plus the current slide's
elements, text/image counters, source-page set (modelled as a duplicate-free
list, sorted at finalization) and the slide counter. -/
structure PackState where
  slides_data : List Slide
  cur_elements : List Element
  cur_text : Nat
  cur_imgs : Nat
  cur_pages : List Int
  slide_counter : Nat
  deriving DecidableEq

def initPack : PackState := ⟨[], [], 0, 0, [], 0⟩

/-- The "text-like" kinds of source line 297. -/
def is_text_type (t : String) : Bool :=
  t = "title" ∨ t = "heading" ∨ t = "subheading" ∨ t = "paragraph" ∨
  t = "list" ∨ t = "table" ∨ t = "code" ∨ t = "equation"

/-- The slide dict built by `finalize_slide` from the current accumulator:
next slide number, elements stamped with their 0-based position, sorted
distinct source pages. -/
def slideOfCur (st : PackState) : Slide :=
  { slideNumber := st.slide_counter + 1,
    elements := st.cur_elements.enum.map (fun p =>
      { type := p.2.type, content := p.2.content,
        imageData := p.2.imageData_b64, position := p.1 }),
    sourcePageNumbers := sortInts st.cur_pages }

/-- `finalize_slide` (source lines 263-290): a no-op on an empty accumulator,
otherwise appends the built slide and resets the accumulator. -/
def finalize_slide (st : PackState) : PackState :=
  if st.cur_elements.isEmpty then st
  else
    { slides_data := st.slides_data ++ [slideOfCur st],
      cur_elements := [], cur_text := 0, cur_imgs := 0, cur_pages := [],
      slide_counter := st.slide_counter + 1 }

/-- The per-element new-slide decision (source lines 299-327), with the
module constants in place of the literals. -/
def needNewSlide (st : PackState) (el : Element) : Bool :=
  if el.type = "image" then
    decide (MAX_IMAGES_PER_SLIDE ≤ st.cur_imgs) ||
    (decide (0 < st.cur_text) && decide (MAX_TEXT_WITH_IMAGES = 0)) ||
    (decide (st.cur_imgs = 0) && decide (MAX_TEXT_WITH_IMAGES ≤ st.cur_text))
  else if is_text_type el.type then
    decide (MAX_TEXT_ELEMENTS_PER_SLIDE ≤ st.cur_text) ||
    (decide (0 < st.cur_imgs) && decide (MAX_TEXT_WITH_IMAGES ≤ st.cur_text))
  else false

/-- The unconditional tail of the packing loop (source lines 336-344):
append the element to the current slide, add its source page to the page set,
and bump the matching counter (`if is_image ... elif is_text ...`). -/
def addEl (st : PackState) (el : Element) : PackState :=
  { slides_data := st.slides_data,
    cur_elements := st.cur_elements ++ [el],
    cur_text := if el.type = "image" then st.cur_text
                else if is_text_type el.type then st.cur_text + 1
                else st.cur_text,
    cur_imgs := if el.type = "image" then st.cur_imgs + 1 else st.cur_imgs,
    cur_pages := if st.cur_pages.contains el.original_page_number then st.cur_pages
                 else st.cur_pages ++ [el.original_page_number],
    slide_counter := st.slide_counter }

/-- One iteration of the packing loop (source lines 293-344): finalize the
current slide when needed and non-empty, then append the element. -/
def packStep (st : PackState) (el : Element) : PackState :=
  addEl (if needNewSlide st el && st.cur_elements.isEmpty = false
         then finalize_slide st else st) el

/-- The title heuristic (source lines 253-261): if the very first element has
kind `heading`, rewrite it to `title`; nothing else is touched. -/
def promoteTitle : List Element → List Element
  | [] => []
  | e :: rest => if e.type = "heading" then { e with type := "title" } :: rest
                 else e :: rest

/-- `assemble_slides`: early-return on empty input, title promotion, the
packing loop, then a final `finalize_slide`. -/
def assemble_slides (elements : List Element) : List Slide :=
  if elements.isEmpty then []
  else
    (finalize_slide ((promoteTitle elements).foldl packStep initPack)).slides_data

/-! ### Document-title resolution (`create_document_json`, source lines 354-375) -/

/-- The parsed sidecar metadata file (`<basename>_meta.json`): the source
distinguishes a JSON array root (whose items it never reads — only
non-emptiness matters) from a JSON object root, of which only the `title` and
`author` keys are read. `none` in `title` means the key is absent. -/
inductive MetaRoot where
  | list (nonempty : Bool)
  | dict (title : Option String) (author : Option String)

/-- `slides and slides[0]["elements"] and slides[0]["elements"][0]["type"] == "title"`:
the first slide's first element's content, when that element has kind title. -/
def firstSlideTitle? (slides : List Slide) : Option String :=
  match slides with
  | s :: _ =>
    match s.elements with
    | e :: _ => if e.type = "title" then some e.content else none
    | [] => none
  | [] => none

/-- The document-title computation of `create_document_json`:
start from the file's base name; a non-empty list-shaped sidecar uses the
first slide's title element (when present); a dict-shaped sidecar uses its
`title` value whenever the key is present; finally, if the title still equals
the base name, the first slide's title element (when present) replaces it.
`meta = none` models a missing sidecar file. -/
def resolve_doc_title (filename_base : String) (meta : Option MetaRoot)
    (slides : List Slide) : String :=
  let doc_title := filename_base
  let doc_title :=
    match meta with
    | none => doc_title
    | some (.list ne) =>
      if ne then (firstSlideTitle? slides).getD doc_title else doc_title
    | some (.dict t _) => t.getD doc_title
  if doc_title = filename_base
  then (firstSlideTitle? slides).getD doc_title
  else doc_title

/-! ### Property definitions used by the theorems -/

/-- `ys` is `xs` with some elements satisfying `P` appended. -/
def AppendsP (xs ys : List Element) (P : Element → Prop) : Prop :=
  ∃ l, ys = xs ++ l ∧ ∀ e ∈ l, P e

/-- The element kinds the flattener can actually emit. -/
def EmittedKind (e : Element) : Prop :=
  e.type = "paragraph" ∨ e.type = "image" ∨ e.type = "list" ∨
  e.type = "table" ∨ e.type = "code" ∨ e.type = "equation"

/-- Image-element count of a finalized slide. -/
def imgCountS (l : List SlideElement) : Nat := l.countP (fun e => e.type = "image")

/-- Text-like-element count of a finalized slide. -/
def txtCountS (l : List SlideElement) : Nat := l.countP (fun e => is_text_type e.type)

/-- Image-element count of an element list. -/
def imgCountE (l : List Element) : Nat := l.countP (fun e => e.type = "image")

/-- Text-like-element count of an element list. -/
def txtCountE (l : List Element) : Nat := l.countP (fun e => is_text_type e.type)

/-- The three per-slide capacity bounds of the spec, under the default limits. -/
def GoodSlide (s : Slide) : Prop :=
  imgCountS s.elements ≤ MAX_IMAGES_PER_SLIDE ∧
  txtCountS s.elements ≤ MAX_TEXT_ELEMENTS_PER_SLIDE ∧
  (0 < imgCountS s.elements → txtCountS s.elements ≤ MAX_TEXT_WITH_IMAGES)

/-- Invariant carried by the packing loop: all finalized slides satisfy the
capacity bounds, the two counters agree with the actual counts on the current
slide, and the current slide itself satisfies the bounds. -/
def PackInv (st : PackState) : Prop :=
  (∀ s ∈ st.slides_data, GoodSlide s) ∧
  st.cur_text = txtCountE st.cur_elements ∧
  st.cur_imgs = imgCountE st.cur_elements ∧
  st.cur_text ≤ MAX_TEXT_ELEMENTS_PER_SLIDE ∧
  st.cur_imgs ≤ MAX_IMAGES_PER_SLIDE ∧
  (0 < st.cur_imgs → st.cur_text ≤ MAX_TEXT_WITH_IMAGES)

/-- Invariant: the finalized slides carry numbers `1..slide_counter` in order
and none of them is empty. -/
def NumInv (st : PackState) : Prop :=
  st.slides_data.map Slide.slideNumber = (List.range st.slide_counter).map (· + 1) ∧
  ∀ s ∈ st.slides_data, s.elements ≠ []

/-- The observable content of a finalized slide element: kind, text, payload. -/
def elemView (e : SlideElement) : String × String × Option String :=
  (e.type, e.content, e.imageData)

/-- The observable content of an input element. -/
def inView (e : Element) : String × String × Option String :=
  (e.type, e.content, e.imageData_b64)

/-- All element views of a slide sequence, in order. -/
def flatViews (slides : List Slide) : List (String × String × Option String) :=
  (slides.map (fun s => s.elements.map elemView)).flatten

/-- Views held by a packer state: finalized slides then the current slide. -/
def stViews (st : PackState) : List (String × String × Option String) :=
  flatViews st.slides_data ++ st.cur_elements.map inView

/-! ### Spec-side reference definitions (for refinement comparisons) -/

/-- Written from the claim's words (C7): the sidecar's declared title is used
only when it is present AND non-empty; otherwise the first slide's title
element's text; otherwise the base name. Compared against
`resolve_doc_title`, which embeds the source. -/
def claimTitleResolution (fb : String) (meta : Option MetaRoot)
    (slides : List Slide) : String :=
  match (match meta with
         | some (MetaRoot.dict t _) => t
         | _ => none : Option String) with
  | some t => if t ≠ "" then t else (firstSlideTitle? slides).getD fb
  | none => (firstSlideTitle? slides).getD fb

/-- Written from the amended claim (C7): a dict-shaped sidecar's declared
title is used whenever the key is present, even when empty; a non-empty
list-shaped sidecar reads the first slide's title element directly; then,
whenever the title resolved so far equals the base name, the first slide's
first element's text replaces it when that element has kind title. -/
def amendedTitleResolution (fb : String) (meta : Option MetaRoot)
    (slides : List Slide) : String :=
  match meta with
  | some (MetaRoot.dict (some t) _) =>
    if t = fb then (firstSlideTitle? slides).getD t else t
  | some (MetaRoot.list true) =>
    (firstSlideTitle? slides).getD fb
  | _ => (firstSlideTitle? slides).getD fb

/-- Written from the claim's words (C9): `source_page` is the 1-based
position, overridden to `i + 1` when the id path's second segment is
`"page"` and the third is a numeral of a 0-based (hence unsigned) integer
`i`; any parse failure falls back to the positional number. Compared against
`pageNumberOf`, which embeds the source. -/
def claimSourcePage (idx : Nat) (pid : Option String) : Int :=
  match pid with
  | none => (idx : Int) + 1
  | some s =>
    if (sSplitSlash s).length > 2 ∧ (sSplitSlash s).getD 1 "" = "page" then
      match pyDigits? ((sSplitSlash s).getD 2 "").data with
      | some i => (i : Int) + 1
      | none => (idx : Int) + 1
    else (idx : Int) + 1

/-- Written from the amended claim (C9): as the claim, but the third segment
is parsed with full CPython `int` conventions — optional sign, surrounding
whitespace, underscore separators — so a negative index `i` yields
`i + 1 ≤ 0` rather than the positional fallback. -/
def amendedSourcePage (idx : Nat) (pid : Option String) : Int :=
  match pid with
  | none => (idx : Int) + 1
  | some s =>
    if (sSplitSlash s).length > 2 ∧ (sSplitSlash s).getD 1 "" = "page" then
      match pyInt? ((sSplitSlash s).getD 2 "") with
      | some i => i + 1
      | none => (idx : Int) + 1
    else (idx : Int) + 1

/-! ### Concrete inputs used by counterexamples and witnesses -/

/-- The C3 scenario page: a SectionHeader "Intro", two Text blocks "A" and
"B", and a Figure carrying an image payload. -/
def c3Page : Block :=
  Block.mk "Page" none none [] []
    [Block.mk "SectionHeader" (some "/page/0/SectionHeader/0") (some "Intro")
       [] [("1", "/page/0/SectionHeader/0")] [],
     Block.mk "Text" (some "/page/0/Text/1") (some "A") [] [] [],
     Block.mk "Text" (some "/page/0/Text/2") (some "B") [] [] [],
     Block.mk "Figure" (some "/page/0/Figure/3") none
       [("/page/0/Figure/3", "IMGDATA")] [] []]

/-- A FigureGroup whose Figure child has no entry in its own images mapping,
with a Caption child that does carry text (C6). -/
def c6Group : Block :=
  Block.mk "FigureGroup" (some "g1") none [] []
    [Block.mk "Figure" (some "f1") none [] [] [],
     Block.mk "Caption" none (some "cap") [] [] []]

/-- A slide whose first element is a title element "T" (C7). -/
def c7Slide : Slide := ⟨1, [⟨"title", "T", none, 0⟩], []⟩

/-- A page whose id encodes the negative explicit index -1 (C9). -/
def c9xPage : Block :=
  Block.mk "Page" (some "x/page/-1") none [] []
    [Block.mk "Text" none (some "A") [] [] []]

/-- A page whose id encodes the explicit 0-based index 3 (C9 witness). -/
def c9wPage : Block :=
  Block.mk "Page" (some "x/page/3") none [] []
    [Block.mk "Text" none (some "A") [] [] []]

/-- The element the flattener emits for `c9wPage`. -/
def c9wEl : Element := ⟨"paragraph", "A", none, 4, "Text"⟩

/-- A SectionHeader block with a section hierarchy (C2 witness). -/
def c2Block : Block :=
  Block.mk "SectionHeader" (some "/page/0/SectionHeader/0") (some "Intro")
    [] [("1", "/page/0/SectionHeader/0")] []

/-- A SectionHeader block whose smallest hierarchy level key is "3"
(C2 witness, subheading case). -/
def c2SubBlock : Block :=
  Block.mk "SectionHeader" none none [] [("3", "/p"), ("4", "/q")] []

/-- A direct Figure block carrying a payload under its own id (C8 witness). -/
def c8Fig : Block := Block.mk "Figure" (some "f1") none [("f1", "PAYLOAD")] [] []

/-- A Figure child carrying a payload under its own id (C8 witness,
group case). -/
def c8GrpFig : Block :=
  Block.mk "Figure" (some "f2") none [("f2", "GPAYLOAD")] [] []

/-- A FigureGroup whose Figure child resolves a payload (C8 witness). -/
def c8Grp : Block := Block.mk "FigureGroup" (some "g2") none [] [] [c8GrpFig]

/-- An image element carrying the `c8Fig` payload (C8 witness). -/
def c8El : Element := ⟨"image", "", some "PAYLOAD", 1, "Figure"⟩

/-- A short element sequence: one paragraph then one image (C1/C5 witness). -/
def c1Els : List Element :=
  [⟨"paragraph", "a", none, 1, "Text"⟩, ⟨"image", "", some "X", 1, "Figure"⟩]

/-- The first slide the packer produces from `c1Els`. -/
def c1Slide : Slide := ⟨1, [⟨"paragraph", "a", none, 0⟩], [1]⟩

/-- A heading-first element (C4 witness). -/
def c4El : Element := ⟨"heading", "H", none, 1, "SectionHeader"⟩

/-- A one-page input with a single Text block (C10 witness). -/
def c10Input : MarkerInput :=
  MarkerInput.list [Block.mk "Page" none none [] []
    [Block.mk "Text" none (some "A") [] [] []]]

/-- The element the flattener emits for `c10Input`. -/
def c10El : Element := ⟨"paragraph", "A", none, 1, "Text"⟩

/-! ### Helper lemmas: enumeration, appending -/

theorem map_snd_enumFrom {α β : Type} (g : α → β) :
    ∀ (l : List α) (n : Nat), (l.enumFrom n).map (fun p => g p.2) = l.map g := by
  intro l
  induction l with
  | nil => intro n; rfl
  | cons a t ih => intro n; simp [List.enumFrom, ih]

theorem countP_snd_enumFrom {α : Type} (p : α → Bool) :
    ∀ (l : List α) (n : Nat), (l.enumFrom n).countP (fun q => p q.2) = l.countP p := by
  intro l
  induction l with
  | nil => intro n; rfl
  | cons a t ih => intro n; simp [List.enumFrom, List.countP_cons, ih]

theorem AppendsP.refl (xs : List Element) (P : Element → Prop) : AppendsP xs xs P :=
  ⟨[], by simp⟩

theorem AppendsP.trans {xs ys zs : List Element} {P : Element → Prop}
    (h1 : AppendsP xs ys P) (h2 : AppendsP ys zs P) : AppendsP xs zs P := by
  obtain ⟨l1, h1e, h1p⟩ := h1
  obtain ⟨l2, h2e, h2p⟩ := h2
  refine ⟨l1 ++ l2, by simp [h1e, h2e], ?_⟩
  intro e he
  rcases List.mem_append.mp he with h | h
  · exact h1p e h
  · exact h2p e h

theorem AppendsP.weaken {xs ys : List Element} {P Q : Element → Prop}
    (h : AppendsP xs ys P) (hpq : ∀ e, P e → Q e) : AppendsP xs ys Q := by
  obtain ⟨l, he, hp⟩ := h
  exact ⟨l, he, fun e hm => hpq e (hp e hm)⟩

theorem AppendsP.mem {xs ys : List Element} {P : Element → Prop}
    (h : AppendsP xs ys P) {e : Element} (he : e ∈ ys) : e ∈ xs ∨ P e := by
  obtain ⟨l, hl, hp⟩ := h
  subst hl
  rcases List.mem_append.mp he with h | h
  · exact Or.inl h
  · exact Or.inr (hp e h)

/-! ### Helper lemmas: the classifier -/

theorem classifier_cases (b : Block) :
    get_block_semantic_type b = none ∨
    get_block_semantic_type b = some "paragraph" ∨
    get_block_semantic_type b = some "image" ∨
    get_block_semantic_type b = some "list" ∨
    get_block_semantic_type b = some "list_item_internal" ∨
    get_block_semantic_type b = some "table" ∨
    get_block_semantic_type b = some "code" ∨
    get_block_semantic_type b = some "equation" := by
  unfold get_block_semantic_type
  repeat' split
  all_goals simp

theorem classifier_not_heading (b : Block) :
    get_block_semantic_type b ≠ some "heading" ∧
    get_block_semantic_type b ≠ some "subheading" := by
  rcases classifier_cases b with h | h | h | h | h | h | h | h <;> rw [h] <;> simp

/-! ### Helper lemmas: the flattener appends well-typed elements -/

theorem emitElement_sets (pageNum : Int) (b : Block) (st : ExtractState)
    (ty? : Option String) (c : String) (img : Option String) :
    (emitElement pageNum b st ty? c img).processed_list_group_ids =
      st.processed_list_group_ids ∧
    (emitElement pageNum b st ty? c img).processed_parent_group_ids =
      st.processed_parent_group_ids := by
  cases ty? with
  | none => exact ⟨rfl, rfl⟩
  | some t =>
    simp only [emitElement]
    split
    · exact ⟨rfl, rfl⟩
    · exact ⟨rfl, rfl⟩

theorem emitElement_appends (pageNum : Int) (b : Block) (st : ExtractState)
    (ty? : Option String) (c : String) (img : Option String) :
    AppendsP st.all_elements (emitElement pageNum b st ty? c img).all_elements
      (fun e => ty? = some e.type ∧ e.original_page_number = pageNum ∧
                e.imageData_b64 = img) := by
  cases ty? with
  | none => exact AppendsP.refl _ _
  | some t =>
    simp only [emitElement]
    split
    · refine ⟨[⟨t, c, img, pageNum, b.block_type⟩], rfl, ?_⟩
      intro e he
      simp only [List.mem_singleton] at he
      subst he
      exact ⟨rfl, rfl, rfl⟩
    · exact AppendsP.refl _ _

theorem processGroupBlock_appends (pageNum : Int) (st : ExtractState) (b : Block) :
    AppendsP st.all_elements (processGroupBlock pageNum st b).all_elements
      (fun e => e.type = "image" ∧ e.original_page_number = pageNum) := by
  unfold processGroupBlock
  split
  · exact (emitElement_appends pageNum b st (some "image") "" none).weaken
      (fun e ⟨h1, h2, _⟩ => ⟨by simpa using h1.symm, h2⟩)
  · split
    · exact (emitElement_appends pageNum b _ (some "image") _ _).weaken
        (fun e ⟨h1, h2, _⟩ => ⟨by simpa using h1.symm, h2⟩)
    · exact (emitElement_appends pageNum b st none _ _).weaken
        (fun e ⟨h1, _, _⟩ => by simp at h1)

theorem processDirectFigure_appends (pageNum : Int) (st : ExtractState) (b : Block) :
    AppendsP st.all_elements (processDirectFigure pageNum st b).all_elements
      (fun e => e.type = "image" ∧ e.original_page_number = pageNum) := by
  unfold processDirectFigure
  split
  · exact (emitElement_appends pageNum b st (some "image") _ _).weaken
      (fun e ⟨h1, h2, _⟩ => ⟨by simpa using h1.symm, h2⟩)
  · exact (emitElement_appends pageNum b st none "" none).weaken
      (fun e ⟨h1, _, _⟩ => by simp at h1)

theorem processImageBlock_appends (pageNum : Int) (st : ExtractState) (b : Block) :
    AppendsP st.all_elements (processImageBlock pageNum st b).all_elements
      (fun e => e.type = "image" ∧ e.original_page_number = pageNum) := by
  unfold processImageBlock
  split
  · exact processGroupBlock_appends pageNum st b
  · split
    · exact processDirectFigure_appends pageNum st b
    · exact (emitElement_appends pageNum b st none "" none).weaken
        (fun e ⟨h1, _, _⟩ => by simp at h1)

theorem processListBlock_appends (pageNum : Int) (st : ExtractState) (b : Block) :
    AppendsP st.all_elements (processListBlock pageNum st b).all_elements
      (fun e => e.type = "list" ∧ e.original_page_number = pageNum) := by
  unfold processListBlock
  split
  · exact AppendsP.refl _ _
  · exact (emitElement_appends pageNum b _ (some "list") _ none).weaken
      (fun e ⟨h1, h2, _⟩ => ⟨by simpa using h1.symm, h2⟩)

theorem processStructuralBlock_appends (pageNum : Int) (st : ExtractState) (b : Block)
    (ty? : Option String) :
    AppendsP st.all_elements (processStructuralBlock pageNum st b ty?).all_elements
      (fun e => ty? = some e.type ∧ e.original_page_number = pageNum) := by
  unfold processStructuralBlock
  exact (emitElement_appends pageNum b st ty? _ none).weaken
    (fun e ⟨h1, h2, _⟩ => ⟨h1, h2⟩)

theorem processPageBlock_appends (pageNum : Int) (st : ExtractState) (b : Block) :
    AppendsP st.all_elements (processPageBlock pageNum st b).all_elements
      (fun e => EmittedKind e ∧ e.original_page_number = pageNum) := by
  unfold processPageBlock
  split
  · exact AppendsP.refl _ _
  · split
    · exact (processImageBlock_appends pageNum st b).weaken
        (fun e ⟨h1, h2⟩ => ⟨Or.inr (Or.inl h1), h2⟩)
    · split
      · rename_i hstr
        refine (processStructuralBlock_appends pageNum st b _).weaken ?_
        rintro e ⟨h1, h2⟩
        refine ⟨?_, h2⟩
        rcases hstr with h | h | h <;> rw [h] at h1 <;>
          simp only [Option.some.injEq] at h1 <;>
          simp [EmittedKind, ← h1]
      · split
        · exact (processListBlock_appends pageNum st b).weaken
            (fun e ⟨h1, h2⟩ => ⟨Or.inr (Or.inr (Or.inl h1)), h2⟩)
        · split
          · rename_i hph
            refine (emitElement_appends pageNum b st _ _ none).weaken ?_
            rintro e ⟨h1, h2, _⟩
            refine ⟨?_, h2⟩
            rcases hph with h | h
            · rw [h] at h1
              simp only [Option.some.injEq] at h1
              simp [EmittedKind, ← h1]
            · exact absurd h (classifier_not_heading b).1
          · exact AppendsP.refl _ _

theorem processPage_appends (idx : Nat) (st : ExtractState) (page : Block) :
    AppendsP st.all_elements (processPage idx st page).all_elements
      (fun e => EmittedKind e ∧
        e.original_page_number = pageNumberOf idx page.id) := by
  unfold processPage
  split
  · rename_i hp
    generalize page.children = blocks
    induction blocks generalizing st with
    | nil => exact AppendsP.refl _ _
    | cons b t ih =>
      simp only [List.foldl_cons]
      exact (processPageBlock_appends _ st b).trans (ih _)
  · exact AppendsP.refl _ _

theorem extract_appends (input : MarkerInput) :
    AppendsP [] (extractState input).all_elements (fun e => EmittedKind e) := by
  unfold extractState
  generalize (pagesToProcess input).enum = pages
  have : ∀ (ps : List (Nat × Block)) (st : ExtractState),
      AppendsP st.all_elements
        ((ps.foldl (fun st ip => processPage ip.1 st ip.2) st).all_elements)
        (fun e => EmittedKind e) := by
    intro ps
    induction ps with
    | nil => intro st; exact AppendsP.refl _ _
    | cons p t ih =>
      intro st
      simp only [List.foldl_cons]
      exact ((processPage_appends p.1 st p.2).weaken (fun e h => h.1)).trans (ih _)
  exact this pages initExtract

theorem extract_kinds (input : MarkerInput) :
    ∀ e ∈ extract_elements_from_marker input, EmittedKind e := by
  intro e he
  rcases (extract_appends input).mem he with h | h
  · simp at h
  · exact h

/-! ### Helper lemmas: packer capacity invariant -/

theorem slideOfCur_counts (st : PackState) :
    imgCountS (slideOfCur st).elements = imgCountE st.cur_elements ∧
    txtCountS (slideOfCur st).elements = txtCountE st.cur_elements := by
  constructor
  · show List.countP _ (List.map _ (List.enumFrom 0 st.cur_elements)) = _
    rw [List.countP_map]
    exact countP_snd_enumFrom (fun e => e.type = "image") st.cur_elements 0
  · show List.countP _ (List.map _ (List.enumFrom 0 st.cur_elements)) = _
    rw [List.countP_map]
    exact countP_snd_enumFrom (fun e => is_text_type e.type) st.cur_elements 0

theorem initPack_inv : PackInv initPack := by
  refine ⟨?_, rfl, rfl, ?_, ?_, ?_⟩
  · intro s hs
    simp [initPack] at hs
  · decide
  · decide
  · intro h
    exact absurd h (by decide)

theorem finalize_slide_inv (st : PackState) (h : PackInv st) :
    PackInv (finalize_slide st) := by
  obtain ⟨hs, ht, hi, b1, b2, b3⟩ := h
  unfold finalize_slide
  split
  · exact ⟨hs, ht, hi, b1, b2, b3⟩
  · refine ⟨?_, rfl, rfl, ?_, ?_, ?_⟩
    · intro s hmem
      rcases List.mem_append.mp hmem with hm | hm
      · exact hs s hm
      · simp only [List.mem_singleton] at hm
        subst hm
        obtain ⟨ci, ct⟩ := slideOfCur_counts st
        exact ⟨ci ▸ hi ▸ b2, ct ▸ ht ▸ b1, fun hp => ct ▸ ht ▸ b3 (hi ▸ ci ▸ hp)⟩
    · exact Nat.zero_le _
    · exact Nat.zero_le _
    · intro hp
      simp at hp

theorem finalize_slide_cur (st : PackState) :
    (finalize_slide st).cur_elements = [] := by
  unfold finalize_slide
  split
  · rename_i hc
    exact List.isEmpty_iff.mp hc
  · rfl

theorem needNewSlide_false_image (st : PackState) (el : Element)
    (himg : el.type = "image") (h : needNewSlide st el = false) :
    st.cur_imgs ≤ 1 ∧ (st.cur_imgs = 0 → st.cur_text = 0) := by
  simp [needNewSlide, himg, MAX_IMAGES_PER_SLIDE, MAX_TEXT_WITH_IMAGES] at h
  omega

theorem needNewSlide_false_text (st : PackState) (el : Element)
    (himg : el.type ≠ "image") (htxt : is_text_type el.type = true)
    (h : needNewSlide st el = false) :
    st.cur_text ≤ 2 ∧ (0 < st.cur_imgs → st.cur_text = 0) := by
  simp [needNewSlide, himg, htxt, MAX_TEXT_ELEMENTS_PER_SLIDE,
    MAX_TEXT_WITH_IMAGES] at h
  omega

theorem addEl_inv (st : PackState) (el : Element) (h : PackInv st)
    (hok : needNewSlide st el = false ∨ st.cur_elements = []) :
    PackInv (addEl st el) := by
  obtain ⟨hs, ht, hi, b1, b2, b3⟩ := h
  rw [show MAX_TEXT_ELEMENTS_PER_SLIDE = 3 from rfl] at b1
  rw [show MAX_IMAGES_PER_SLIDE = 2 from rfl] at b2
  rw [show MAX_TEXT_WITH_IMAGES = 1 from rfl] at b3
  have hcur0 : st.cur_elements = [] → st.cur_text = 0 ∧ st.cur_imgs = 0 := by
    intro hnil
    rw [hnil] at ht hi
    exact ⟨ht, hi⟩
  by_cases himg : el.type = "image"
  · have htxtF : is_text_type el.type = false := by rw [himg]; decide
    have hbound : st.cur_imgs ≤ 1 ∧ (st.cur_imgs = 0 → st.cur_text = 0) := by
      rcases hok with hok | hok
      · exact needNewSlide_false_image st el himg hok
      · obtain ⟨e1, e2⟩ := hcur0 hok
        omega
    refine ⟨hs, ?_, ?_, ?_, ?_, ?_⟩ <;> simp only [addEl]
    · rw [if_pos himg, ht]
      simp [txtCountE, List.countP_append, List.countP_cons, htxtF]
    · rw [if_pos himg, hi]
      simp [imgCountE, List.countP_append, List.countP_cons, himg]
    · rw [if_pos himg, show MAX_TEXT_ELEMENTS_PER_SLIDE = 3 from rfl]
      exact b1
    · rw [if_pos himg, show MAX_IMAGES_PER_SLIDE = 2 from rfl]
      omega
    · rw [if_pos himg, if_pos himg, show MAX_TEXT_WITH_IMAGES = 1 from rfl]
      intro _
      omega
  · by_cases htxt : is_text_type el.type = true
    · have hbound : st.cur_text ≤ 2 ∧ (0 < st.cur_imgs → st.cur_text = 0) := by
        rcases hok with hok | hok
        · exact needNewSlide_false_text st el himg htxt hok
        · obtain ⟨e1, e2⟩ := hcur0 hok
          omega
      refine ⟨hs, ?_, ?_, ?_, ?_, ?_⟩ <;> simp only [addEl]
      · rw [if_neg himg, if_pos htxt, ht]
        simp [txtCountE, List.countP_append, List.countP_cons, htxt]
      · rw [if_neg himg, hi]
        simp [imgCountE, List.countP_append, List.countP_cons, himg]
      · rw [if_neg himg, if_pos htxt, show MAX_TEXT_ELEMENTS_PER_SLIDE = 3 from rfl]
        omega
      · rw [if_neg himg, show MAX_IMAGES_PER_SLIDE = 2 from rfl]
        exact b2
      · rw [if_neg himg, if_neg himg, if_pos htxt,
          show MAX_TEXT_WITH_IMAGES = 1 from rfl]
        intro hp
        omega
    · have htxtF : is_text_type el.type = false := Bool.eq_false_iff.mpr htxt
      have htxtP : ¬ (is_text_type el.type = true) := htxt
      refine ⟨hs, ?_, ?_, ?_, ?_, ?_⟩ <;> simp only [addEl]
      · rw [if_neg himg, if_neg htxtP, ht]
        simp [txtCountE, List.countP_append, List.countP_cons, htxtF]
      · rw [if_neg himg, hi]
        simp [imgCountE, List.countP_append, List.countP_cons, himg]
      · rw [if_neg himg, if_neg htxtP, show MAX_TEXT_ELEMENTS_PER_SLIDE = 3 from rfl]
        exact b1
      · rw [if_neg himg, show MAX_IMAGES_PER_SLIDE = 2 from rfl]
        exact b2
      · rw [if_neg himg, if_neg himg, if_neg htxtP,
          show MAX_TEXT_WITH_IMAGES = 1 from rfl]
        exact b3

theorem packStep_inv (st : PackState) (el : Element) (h : PackInv st) :
    PackInv (packStep st el) := by
  unfold packStep
  by_cases hc : (needNewSlide st el && st.cur_elements.isEmpty = false) = true
  · rw [if_pos hc]
    exact addEl_inv _ el (finalize_slide_inv st h) (Or.inr (finalize_slide_cur st))
  · rw [if_neg hc]
    rcases Bool.and_eq_false_iff.mp (Bool.eq_false_iff.mpr hc) with hf | hf
    · exact addEl_inv st el h (Or.inl hf)
    · have : st.cur_elements.isEmpty = true := by
        rcases hb : st.cur_elements.isEmpty
        · rw [hb] at hf
          simp at hf
        · rfl
      exact addEl_inv st el h (Or.inr (List.isEmpty_iff.mp this))

theorem foldl_packStep_inv (l : List Element) :
    ∀ st : PackState, PackInv st → PackInv (l.foldl packStep st) := by
  induction l with
  | nil => intro st h; exact h
  | cons e t ih =>
    intro st h
    exact ih _ (packStep_inv st e h)

theorem assemble_good (elements : List Element) :
    ∀ s ∈ assemble_slides elements, GoodSlide s := by
  unfold assemble_slides
  split
  · intro s hs; simp at hs
  · intro s hs
    have hinv := finalize_slide_inv _
      (foldl_packStep_inv (promoteTitle elements) initPack initPack_inv)
    exact hinv.1 s hs

/-! ### Helper lemmas: slide numbering and non-emptiness -/

theorem initPack_num : NumInv initPack := by
  constructor
  · rfl
  · intro s hs
    simp [initPack] at hs

theorem finalize_slide_num (st : PackState) (h : NumInv st) :
    NumInv (finalize_slide st) := by
  obtain ⟨hn, he⟩ := h
  unfold finalize_slide
  split
  · exact ⟨hn, he⟩
  · rename_i hne
    constructor
    · simp only [List.map_append, hn, List.range_succ, List.map_cons,
        List.map_nil]
      rfl
    · intro s hmem
      rcases List.mem_append.mp hmem with hm | hm
      · exact he s hm
      · simp only [List.mem_singleton] at hm
        subst hm
        intro hcontra
        have hlen : (slideOfCur st).elements.length = st.cur_elements.length := by
          show ((st.cur_elements.enumFrom 0).map _).length = _
          rw [List.length_map, List.enumFrom_length]
        rw [hcontra] at hlen
        have : st.cur_elements = [] := List.eq_nil_of_length_eq_zero hlen.symm
        rw [← List.isEmpty_iff] at this
        exact absurd this (by simpa using hne)

theorem addEl_num (st : PackState) (el : Element) (h : NumInv st) :
    NumInv (addEl st el) := h

theorem packStep_num (st : PackState) (el : Element) (h : NumInv st) :
    NumInv (packStep st el) := by
  unfold packStep
  split
  · exact addEl_num _ el (finalize_slide_num st h)
  · exact addEl_num st el h

theorem foldl_packStep_num (l : List Element) :
    ∀ st : PackState, NumInv st → NumInv (l.foldl packStep st) := by
  induction l with
  | nil => intro st h; exact h
  | cons e t ih =>
    intro st h
    exact ih _ (packStep_num st e h)

theorem assemble_num (elements : List Element) :
    NumInv (finalize_slide ((promoteTitle elements).foldl packStep initPack)) :=
  finalize_slide_num _ (foldl_packStep_num (promoteTitle elements) initPack initPack_num)

theorem assemble_nonempty (elements : List Element) :
    ∀ s ∈ assemble_slides elements, s.elements ≠ [] := by
  unfold assemble_slides
  split
  · intro s hs
    simp at hs
  · exact (assemble_num elements).2

/-- The slide numbers of the packer's output are `1..N` in order. -/
theorem assemble_numbers (elements : List Element) :
    (assemble_slides elements).map Slide.slideNumber =
      (List.range (assemble_slides elements).length).map (· + 1) := by
  unfold assemble_slides
  split
  · rfl
  · have h := (assemble_num elements).1
    have hlen : (finalize_slide ((promoteTitle elements).foldl packStep initPack)).slides_data.length =
        (finalize_slide ((promoteTitle elements).foldl packStep initPack)).slide_counter := by
      have := congrArg List.length h
      simpa using this
    rw [h, hlen]

/-! ### Helper lemmas: the packer emits exactly the input elements, in order -/

theorem slideOfCur_views (st : PackState) :
    (slideOfCur st).elements.map elemView = st.cur_elements.map inView := by
  show ((st.cur_elements.enumFrom 0).map _).map elemView = _
  rw [List.map_map]
  exact map_snd_enumFrom inView st.cur_elements 0

theorem finalize_slide_views (st : PackState) :
    stViews (finalize_slide st) = stViews st := by
  unfold finalize_slide
  split
  · rfl
  · rename_i hne
    show flatViews (st.slides_data ++ [slideOfCur st]) ++ [].map inView =
      flatViews st.slides_data ++ st.cur_elements.map inView
    simp only [flatViews, List.map_append, List.flatten_append, List.map_nil,
      List.append_nil, List.map_cons, List.flatten_cons, List.flatten_nil,
      List.append_nil, slideOfCur_views]

theorem addEl_views (st : PackState) (el : Element) :
    stViews (addEl st el) = stViews st ++ [inView el] := by
  show flatViews st.slides_data ++ (st.cur_elements ++ [el]).map inView = _
  simp [stViews, List.map_append]

theorem packStep_views (st : PackState) (el : Element) :
    stViews (packStep st el) = stViews st ++ [inView el] := by
  unfold packStep
  split
  · rw [addEl_views, finalize_slide_views]
  · rw [addEl_views]

theorem foldl_packStep_views (l : List Element) :
    ∀ st : PackState, stViews (l.foldl packStep st) = stViews st ++ l.map inView := by
  induction l with
  | nil => intro st; simp
  | cons e t ih =>
    intro st
    simp only [List.foldl_cons, ih, packStep_views, List.map_cons]
    simp

/-- The packer's output views are exactly the (title-promoted) input views. -/
theorem assemble_views (elements : List Element) :
    flatViews (assemble_slides elements) = (promoteTitle elements).map inView := by
  unfold assemble_slides
  split
  · rename_i hnil
    rw [List.isEmpty_iff.mp hnil]
    rfl
  · have h1 : flatViews (finalize_slide ((promoteTitle elements).foldl packStep initPack)).slides_data =
        stViews (finalize_slide ((promoteTitle elements).foldl packStep initPack)) := by
      unfold stViews
      rw [finalize_slide_cur]
      simp
    rw [h1, finalize_slide_views, foldl_packStep_views]
    rfl

theorem promoteTitle_imageData (elements : List Element) :
    (promoteTitle elements).map Element.imageData_b64 =
      elements.map Element.imageData_b64 := by
  cases elements with
  | nil => rfl
  | cons e rest =>
    simp only [promoteTitle]
    split <;> rfl

/-! ### Helper lemmas: children scanning, page numbers, heading absence -/

theorem foldl_lastChild_aux (p : Block → Bool) :
    ∀ (l : List Block) (acc : Option Block) (x : Block),
      l.foldl (fun acc c => if p c then some c else acc) acc = some x →
      (x ∈ l ∧ p x = true) ∨ acc = some x := by
  intro l
  induction l with
  | nil => intro acc x h; exact Or.inr h
  | cons c t ih =>
    intro acc x h
    rw [List.foldl_cons] at h
    rcases ih (if p c then some c else acc) x h with ⟨hm, hp⟩ | hacc
    · exact Or.inl ⟨List.mem_cons_of_mem c hm, hp⟩
    · by_cases hc : p c = true
      · rw [if_pos hc] at hacc
        injection hacc with he
        subst he
        exact Or.inl ⟨List.mem_cons_self c t, hc⟩
      · rw [if_neg hc] at hacc
        exact Or.inr hacc

theorem lastChild?_mem (p : Block → Bool) (l : List Block) (x : Block)
    (h : lastChild? p l = some x) : x ∈ l ∧ p x = true := by
  rcases foldl_lastChild_aux p l none x h with hok | hacc
  · exact hok
  · exact absurd hacc (by simp)

theorem pageNumberOf_eq_amended (idx : Nat) (pid : Option String) :
    pageNumberOf idx pid = amendedSourcePage idx pid := by
  cases pid with
  | none => rfl
  | some s =>
    simp only [pageNumberOf, amendedSourcePage]
    by_cases hs : s = ""
    · subst hs
      rw [if_pos rfl, if_neg (by decide)]
    · rw [if_neg hs]

theorem extract_no_heading (input : MarkerInput) :
    ∀ e ∈ extract_elements_from_marker input, e.type ≠ "heading" := by
  intro e he
  have h := extract_kinds input e he
  unfold EmittedKind at h
  rcases h with h | h | h | h | h | h <;> rw [h] <;> decide

theorem promote_extract_id (input : MarkerInput) :
    promoteTitle (extract_elements_from_marker input) =
      extract_elements_from_marker input := by
  cases hx : extract_elements_from_marker input with
  | nil => rfl
  | cons e rest =>
    have he : e.type ≠ "heading" := by
      apply extract_no_heading input e
      rw [hx]
      exact List.mem_cons_self e rest
    simp only [promoteTitle]
    rw [if_neg he]

/-! ### Claim theorems -/

/-- C1: for every input element sequence, every slide emitted by the packer
satisfies all three capacity bounds under the default limits — image count at
most 2, text-like count at most 3, and text-like count at most 1 whenever the
slide holds at least one image. -/
theorem C1_slide_capacity (elements : List Element) (s : Slide)
    (hs : s ∈ assemble_slides elements) :
    imgCountS s.elements ≤ MAX_IMAGES_PER_SLIDE ∧
    txtCountS s.elements ≤ MAX_TEXT_ELEMENTS_PER_SLIDE ∧
    (0 < imgCountS s.elements → txtCountS s.elements ≤ MAX_TEXT_WITH_IMAGES) :=
  assemble_good elements s hs

/-- C1 witness: the capacity bounds, instantiated on a concrete packing run
(one paragraph followed by one image, which splits into two slides). -/
theorem C1_slide_capacity_witness :
    c1Slide ∈ assemble_slides c1Els ∧
    (imgCountS c1Slide.elements ≤ MAX_IMAGES_PER_SLIDE ∧
     txtCountS c1Slide.elements ≤ MAX_TEXT_ELEMENTS_PER_SLIDE ∧
     (0 < imgCountS c1Slide.elements →
       txtCountS c1Slide.elements ≤ MAX_TEXT_WITH_IMAGES)) :=
  ⟨by decide, C1_slide_capacity c1Els c1Slide (by decide)⟩

/-- C2: for every SectionHeader block, the (spec-modelled) classifier arm
returns a heading-family kind and never `none`: heading when the hierarchy
is absent, heading when the lexicographically smallest level key is "1" or
"2", and subheading for any other smallest key. The arm's body is omitted
from src (`pass  # Placeholder for brevity`), so it is settled against
`sectionHeaderKind`, modelled from the spec's mapping table. -/
theorem C2_sectionheader_heading_family (b : Block)
    (h : b.block_type = "SectionHeader") :
    (sectionHeaderKind b = some "heading" ∨
      sectionHeaderKind b = some "subheading") ∧
    sectionHeaderKind b ≠ none ∧
    (b.section_hierarchy = [] → sectionHeaderKind b = some "heading") ∧
    (∀ k, smallestKey b.section_hierarchy = some k →
      ((k = "1" ∨ k = "2") → sectionHeaderKind b = some "heading") ∧
      (¬ (k = "1" ∨ k = "2") → sectionHeaderKind b = some "subheading")) := by
  unfold sectionHeaderKind
  rw [if_pos h]
  refine ⟨?_, ?_, ?_, ?_⟩
  · cases hk : smallestKey b.section_hierarchy with
    | none => simp [hk]
    | some k =>
      by_cases h12 : (k = "1" ∨ k = "2")
      · simp [hk, h12]
      · simp [hk, h12]
  · cases hk : smallestKey b.section_hierarchy with
    | none => simp [hk]
    | some k =>
      by_cases h12 : (k = "1" ∨ k = "2")
      · simp [hk, h12]
      · simp [hk, h12]
  · intro hnil
    simp [hnil, smallestKey]
  · intro k hk
    constructor
    · intro h12
      simp [hk, h12]
    · intro h12
      simp [hk, h12]

/-- C2 witness: a SectionHeader with smallest level key "1" maps to heading,
one with smallest level key "3" maps to subheading. -/
theorem C2_sectionheader_heading_family_witness :
    c2Block.block_type = "SectionHeader" ∧
    sectionHeaderKind c2Block ≠ none ∧
    sectionHeaderKind c2Block = some "heading" ∧
    c2SubBlock.block_type = "SectionHeader" ∧
    sectionHeaderKind c2SubBlock = some "subheading" :=
  ⟨rfl,
   (C2_sectionheader_heading_family c2Block rfl).2.1,
   ((C2_sectionheader_heading_family c2Block rfl).2.2.2 "1" (by decide)).1
     (Or.inl rfl),
   rfl,
   ((C2_sectionheader_heading_family c2SubBlock rfl).2.2.2 "3" (by decide)).2
     (by decide)⟩

/-- C3: evaluating the full pipeline on the scenario input (SectionHeader
"Intro", Text "A", Text "B", Figure with payload) under the default limits.
The code produces Slide 1 = [paragraph "A", paragraph "B"] and
Slide 2 = [image] — the SectionHeader is dropped by the stubbed classifier,
no title element exists, and the split is triggered by the
first-image-with-text rule, not the max-text boundary the claim describes. -/
theorem C3_scenario_pipeline :
    assemble_slides (extract_elements_from_marker (MarkerInput.list [c3Page])) =
      [⟨1, [⟨"paragraph", "A", none, 0⟩, ⟨"paragraph", "B", none, 1⟩], [1]⟩,
       ⟨2, [⟨"image", "", some "IMGDATA", 0⟩], [1]⟩] := by decide

/-- C4: if the first element of a non-empty sequence has kind heading, the
packer rewrites it to title: the first emitted slide's first element has kind
title with the original text, and the full output view sequence shows every
other element unchanged. -/
theorem C4_title_promotion (e0 : Element) (rest : List Element)
    (h : e0.type = "heading") :
    ∃ s1 ss f fs,
      assemble_slides (e0 :: rest) = s1 :: ss ∧
      s1.elements = f :: fs ∧
      f.type = "title" ∧ f.content = e0.content ∧
      flatViews (assemble_slides (e0 :: rest)) =
        ("title", e0.content, e0.imageData_b64) :: rest.map inView := by
  have hv : flatViews (assemble_slides (e0 :: rest)) =
      ("title", e0.content, e0.imageData_b64) :: rest.map inView := by
    rw [assemble_views]
    simp only [promoteTitle]
    rw [if_pos h]
    rfl
  obtain ⟨s1, ss, hslides⟩ : ∃ s1 ss, assemble_slides (e0 :: rest) = s1 :: ss := by
    cases hsl : assemble_slides (e0 :: rest) with
    | nil =>
      rw [hsl] at hv
      simp [flatViews] at hv
    | cons a l => exact ⟨a, l, rfl⟩
  obtain ⟨f, fs, helems⟩ : ∃ f fs, s1.elements = f :: fs := by
    have hne := assemble_nonempty (e0 :: rest) s1
      (by rw [hslides]; exact List.mem_cons_self _ _)
    cases he : s1.elements with
    | nil => exact absurd he hne
    | cons a l => exact ⟨a, l, rfl⟩
  have hv2 := hv
  rw [hslides] at hv2
  have hflat : flatViews (s1 :: ss) =
      elemView f :: (fs.map elemView ++ flatViews ss) := by
    simp [flatViews, helems]
  rw [hflat] at hv2
  injection hv2 with hhead htail
  refine ⟨s1, ss, f, fs, hslides, helems, ?_, ?_, hv⟩
  · have := congrArg (fun v => v.1) hhead
    simpa [elemView] using this
  · have := congrArg (fun v => v.2.1) hhead
    simpa [elemView] using this

/-- C4 witness: a concrete one-element heading sequence is promoted. -/
theorem C4_title_promotion_witness :
    c4El.type = "heading" ∧
    (∃ s1 ss f fs,
      assemble_slides (c4El :: []) = s1 :: ss ∧
      s1.elements = f :: fs ∧
      f.type = "title" ∧ f.content = c4El.content ∧
      flatViews (assemble_slides (c4El :: [])) =
        ("title", c4El.content, c4El.imageData_b64) :: List.map inView []) :=
  ⟨rfl, C4_title_promotion c4El [] rfl⟩

/-- C5: the emitted slides carry numbers exactly 1..N in output order, and no
emitted slide is empty. -/
theorem C5_slide_numbering (elements : List Element) :
    (assemble_slides elements).map Slide.slideNumber =
      (List.range (assemble_slides elements).length).map (· + 1) ∧
    ∀ s ∈ assemble_slides elements, s.elements ≠ [] :=
  ⟨assemble_numbers elements, assemble_nonempty elements⟩

/-- C5 witness: a concrete two-slide run has numbers [1, 2] and its first
slide is non-empty. -/
theorem C5_slide_numbering_witness :
    (assemble_slides c1Els).map Slide.slideNumber =
      (List.range (assemble_slides c1Els).length).map (· + 1) ∧
    c1Slide.elements ≠ [] :=
  ⟨(C5_slide_numbering c1Els).1, (C5_slide_numbering c1Els).2 c1Slide (by decide)⟩

/-- C6 counterexample: on a FigureGroup whose Figure child has no payload
entry, the code emits nothing (as claimed) but does NOT mark the group id
consumed — `processed_parent_group_ids` stays empty, refuting the claim's
"marked consumed" conjunct (marking happens only on successful resolution). -/
theorem C6_consumed_marking_counterexample :
    (processPageBlock 1 initExtract c6Group).all_elements = [] ∧
    (processPageBlock 1 initExtract c6Group).processed_parent_group_ids = [] ∧
    c6Group.id = some "g1" := by decide

/-- C6 (amended): for a FigureGroup/PictureGroup none of whose Figure/Picture
children resolves a payload, processing the block leaves the state completely
unchanged — no image element, no element at all (even with caption text), and
the group id is NOT marked consumed; its children are nevertheless never
re-emitted because the traversal only visits direct page children. -/
theorem C6_group_without_payload (pageNum : Int) (st : ExtractState) (b : Block)
    (hgrp : b.block_type = "FigureGroup" ∨ b.block_type = "PictureGroup")
    (hnopay : ∀ c ∈ b.children,
      (c.block_type = "Figure" ∨ c.block_type = "Picture") →
      figPayload? c = none) :
    processPageBlock pageNum st b = st := by
  unfold processPageBlock
  by_cases hskip : (b.block_type ∈ IGNORED_BLOCK_TYPES ∨
      idMem b.id st.processed_parent_group_ids = true)
  · rw [if_pos hskip]
  · rw [if_neg hskip]
    have hcls : get_block_semantic_type b = some "image" := by
      rcases hgrp with h | h <;>
        simp [get_block_semantic_type, h, VISUAL_IMAGE_BLOCK_TYPES]
    rw [if_pos hcls]
    unfold processImageBlock
    rw [if_pos hgrp]
    unfold processGroupBlock
    cases hfc : lastChild?
        (fun c => c.block_type = "Figure" ∨ c.block_type = "Picture")
        b.children with
    | none =>
      simp only [hfc]
      simp [emitElement, strTruthy]
    | some fc =>
      simp only [hfc]
      obtain ⟨hmem, hp⟩ := lastChild?_mem _ _ fc hfc
      have hpay : figPayload? fc = none := hnopay fc hmem (by simpa using hp)
      rw [hpay]
      simp [strTruthy, emitElement]

/-- C6 witness: the amended statement instantiated on a concrete group. -/
theorem C6_group_without_payload_witness :
    (c6Group.block_type = "FigureGroup" ∨ c6Group.block_type = "PictureGroup") ∧
    processPageBlock 1 initExtract c6Group = initExtract :=
  ⟨Or.inl rfl,
   C6_group_without_payload 1 initExtract c6Group (Or.inl rfl) (by decide)⟩

/-- C7 counterexample: with a dict-shaped sidecar declaring an EMPTY title,
a first slide whose first element is a title "T", and base name "doc", the
code returns "" while the claim's resolution order demands "T". -/
theorem C7_empty_declared_title_counterexample :
    resolve_doc_title "doc" (some (MetaRoot.dict (some "") none)) [c7Slide] = "" ∧
    claimTitleResolution "doc" (some (MetaRoot.dict (some "") none)) [c7Slide] = "T" ∧
    ("" : String) ≠ "T" :=
  ⟨by decide, by decide, by decide⟩

/-- C7 (amended): the code's title resolution equals the amended rule — the
declared title is used whenever the dict key is present (even empty); the
first slide's title element replaces the title whenever the title resolved so
far equals the base name; a non-empty list-shaped sidecar reads the slide
title directly. -/
theorem C7_title_resolution_matches_code (fb : String) (meta : Option MetaRoot)
    (slides : List Slide) :
    resolve_doc_title fb meta slides = amendedTitleResolution fb meta slides := by
  have getD_fix : ∀ (o : Option String),
      (if o.getD fb = fb then o.getD (o.getD fb) else o.getD fb) = o.getD fb := by
    intro o
    cases o with
    | none => simp
    | some v => by_cases hv : v = fb <;> simp [hv]
  cases meta with
  | none => simp [resolve_doc_title, amendedTitleResolution]
  | some m =>
    cases m with
    | list ne =>
      cases ne with
      | false => simp [resolve_doc_title, amendedTitleResolution]
      | true =>
        simp only [resolve_doc_title, amendedTitleResolution, if_pos rfl]
        exact getD_fix _
    | dict t a =>
      cases t with
      | none => simp [resolve_doc_title, amendedTitleResolution]
      | some v => rfl

/-- C8: (1) a direct Figure/Picture block whose own id resolves a non-empty
payload in its own images mapping emits exactly one image element carrying
that payload unchanged; (2) a FigureGroup/PictureGroup block whose scanned
Figure/Picture child resolves a non-empty payload by the child's own id in
the child's own images mapping likewise emits exactly one image element
carrying that payload unchanged; (3) for every element sequence, the
payloads on the packer's output slides are exactly the input elements'
payloads, in order — so a staged payload reappears byte-identically as the
output imageData. -/
theorem C8_payload_roundtrip :
    (∀ (pageNum : Int) (st : ExtractState) (b : Block) (k p : String),
      (b.block_type = "Figure" ∨ b.block_type = "Picture") →
      b.id = some k → b.images.lookup k = some p → p ≠ "" →
      idMem b.id st.processed_parent_group_ids = false →
      ∃ e, (processPageBlock pageNum st b).all_elements =
            st.all_elements ++ [e] ∧
        e.type = "image" ∧ e.imageData_b64 = some p) ∧
    (∀ (pageNum : Int) (st : ExtractState) (b : Block) (fc : Block) (k p : String),
      (b.block_type = "FigureGroup" ∨ b.block_type = "PictureGroup") →
      lastChild? (fun c => c.block_type = "Figure" ∨ c.block_type = "Picture")
          b.children = some fc →
      fc.id = some k → fc.images.lookup k = some p → p ≠ "" →
      idMem b.id st.processed_parent_group_ids = false →
      ∃ e, (processPageBlock pageNum st b).all_elements =
            st.all_elements ++ [e] ∧
        e.type = "image" ∧ e.imageData_b64 = some p) ∧
    (∀ elements : List Element,
      (flatViews (assemble_slides elements)).map (fun v => v.2.2) =
        elements.map Element.imageData_b64) := by
  refine ⟨?_, ?_, ?_⟩
  · intro pageNum st b k p hb hid hlook hp hmem
    unfold processPageBlock
    have hnotig : ¬ (b.block_type ∈ IGNORED_BLOCK_TYPES ∨
        idMem b.id st.processed_parent_group_ids = true) := by
      rintro (h | h)
      · rcases hb with hb | hb <;> rw [hb] at h <;>
          simp [IGNORED_BLOCK_TYPES] at h
      · rw [hmem] at h
        exact absurd h (by simp)
    rw [if_neg hnotig]
    have hcls : get_block_semantic_type b = some "image" := by
      rcases hb with hb | hb <;>
        simp [get_block_semantic_type, hb, VISUAL_IMAGE_BLOCK_TYPES]
    rw [if_pos hcls]
    unfold processImageBlock
    have hng : ¬ (b.block_type = "FigureGroup" ∨ b.block_type = "PictureGroup") := by
      rcases hb with hb | hb <;> rw [hb] <;> decide
    rw [if_neg hng, if_pos hb]
    unfold processDirectFigure
    have hpay : figPayload? b = some p := by
      simp [figPayload?, hid, hlook]
    rw [hpay]
    have hcond : (if sToLower (get_clean_text b.html) ≠ sToLower b.block_type
        then get_clean_text b.html else "") ≠ "" ∨ strTruthy (some p) = true :=
      Or.inr (by simp [strTruthy, hp])
    simp only [emitElement]
    rw [if_pos hcond]
    exact ⟨_, rfl, rfl, rfl⟩
  · intro pageNum st b fc k p hb hfc hid hlook hp hmem
    unfold processPageBlock
    have hnotig : ¬ (b.block_type ∈ IGNORED_BLOCK_TYPES ∨
        idMem b.id st.processed_parent_group_ids = true) := by
      rintro (h | h)
      · rcases hb with hb | hb <;> rw [hb] at h <;>
          simp [IGNORED_BLOCK_TYPES] at h
      · rw [hmem] at h
        exact absurd h (by simp)
    rw [if_neg hnotig]
    have hcls : get_block_semantic_type b = some "image" := by
      rcases hb with hb | hb <;>
        simp [get_block_semantic_type, hb, VISUAL_IMAGE_BLOCK_TYPES]
    rw [if_pos hcls]
    unfold processImageBlock
    rw [if_pos hb]
    unfold processGroupBlock
    simp only [hfc]
    have hpay : figPayload? fc = some p := by
      simp [figPayload?, hid, hlook]
    rw [hpay]
    have htr : strTruthy (some p) = true := by simp [strTruthy, hp]
    rw [if_pos htr]
    simp only [emitElement]
    rw [if_pos (Or.inr htr)]
    exact ⟨_, rfl, rfl, rfl⟩
  · intro elements
    rw [assemble_views, List.map_map]
    exact promoteTitle_imageData elements

/-- C8 witness: the round trip instantiated on a concrete direct Figure
block, a concrete FigureGroup with a payload-bearing Figure child, and a
concrete one-element packing run. -/
theorem C8_payload_roundtrip_witness :
    (c8Fig.block_type = "Figure" ∨ c8Fig.block_type = "Picture") ∧
    c8Fig.id = some "f1" ∧
    c8Fig.images.lookup "f1" = some "PAYLOAD" ∧
    ("PAYLOAD" : String) ≠ "" ∧
    idMem c8Fig.id initExtract.processed_parent_group_ids = false ∧
    (∃ e, (processPageBlock 1 initExtract c8Fig).all_elements =
          initExtract.all_elements ++ [e] ∧
      e.type = "image" ∧ e.imageData_b64 = some "PAYLOAD") ∧
    (c8Grp.block_type = "FigureGroup" ∨ c8Grp.block_type = "PictureGroup") ∧
    lastChild? (fun c => c.block_type = "Figure" ∨ c.block_type = "Picture")
        c8Grp.children = some c8GrpFig ∧
    c8GrpFig.id = some "f2" ∧
    c8GrpFig.images.lookup "f2" = some "GPAYLOAD" ∧
    ("GPAYLOAD" : String) ≠ "" ∧
    idMem c8Grp.id initExtract.processed_parent_group_ids = false ∧
    (∃ e, (processPageBlock 2 initExtract c8Grp).all_elements =
          initExtract.all_elements ++ [e] ∧
      e.type = "image" ∧ e.imageData_b64 = some "GPAYLOAD") ∧
    (flatViews (assemble_slides [c8El])).map (fun v => v.2.2) =
      [c8El].map Element.imageData_b64 :=
  ⟨Or.inl rfl, rfl, by decide, by decide, by decide,
   C8_payload_roundtrip.1 1 initExtract c8Fig "f1" "PAYLOAD" (Or.inl rfl) rfl
     (by decide) (by decide) (by decide),
   Or.inl rfl, rfl, rfl, by decide, by decide, by decide,
   C8_payload_roundtrip.2.1 2 initExtract c8Grp c8GrpFig "f2" "GPAYLOAD"
     (Or.inl rfl) rfl rfl (by decide) (by decide) (by decide),
   C8_payload_roundtrip.2.2 [c8El]⟩

/-- C9 counterexample: a Page whose id has segments x, page, -1 (the third
segment is not a 0-based integer, yet is accepted by Python int). The claim
demands the positional fallback 1 for the page's element; the code computes
int of -1, plus 1, which is 0. -/
theorem C9_negative_index_counterexample :
    (processPage 0 initExtract c9xPage).all_elements.map
        Element.original_page_number = [0] ∧
    claimSourcePage 0 (some "x/page/-1") = 1 ∧
    ((0 : Int) ≠ 1) := by
  refine ⟨by decide, by decide, by decide⟩

/-- C9 (amended): the page number equals the amended rule — positional
1-based numbering, overridden to i + 1 when the id's second slash segment is
"page" and the third parses as a Python integer i (sign permitted, so
negative i gives i + 1 ≤ 0); parse failure falls back to positional — and
every element a Page contributes carries exactly that number. -/
theorem C9_source_page :
    (∀ (idx : Nat) (pid : Option String),
      pageNumberOf idx pid = amendedSourcePage idx pid) ∧
    (∀ (idx : Nat) (st : ExtractState) (page : Block),
      page.block_type = "Page" →
      ∀ e ∈ (processPage idx st page).all_elements,
        e ∈ st.all_elements ∨
        e.original_page_number = pageNumberOf idx page.id) := by
  constructor
  · exact pageNumberOf_eq_amended
  · intro idx st page hpage e he
    rcases (processPage_appends idx st page).mem he with h | h
    · exact Or.inl h
    · exact Or.inr h.2

/-- C9 witness: instantiated on a page with id "x/page/3" — its single
element carries source page 4. -/
theorem C9_source_page_witness :
    pageNumberOf 0 (some "x/page/3") = amendedSourcePage 0 (some "x/page/3") ∧
    c9wPage.block_type = "Page" ∧
    c9wEl ∈ (processPage 0 initExtract c9wPage).all_elements ∧
    (c9wEl ∈ initExtract.all_elements ∨
      c9wEl.original_page_number = pageNumberOf 0 c9wPage.id) :=
  ⟨C9_source_page.1 0 (some "x/page/3"), rfl, by decide,
   C9_source_page.2 0 initExtract c9wPage rfl c9wEl (by decide)⟩

/-- C10: the classifier never returns heading or subheading for any block;
consequently no element produced by the flattener has kind heading, and the
packer's title promotion is the identity on every flattener output. -/
theorem C10_no_heading_ever :
    (∀ b : Block, get_block_semantic_type b ≠ some "heading" ∧
      get_block_semantic_type b ≠ some "subheading") ∧
    (∀ input : MarkerInput,
      ∀ e ∈ extract_elements_from_marker input, e.type ≠ "heading") ∧
    (∀ input : MarkerInput,
      promoteTitle (extract_elements_from_marker input) =
        extract_elements_from_marker input) :=
  ⟨classifier_not_heading, extract_no_heading, promote_extract_id⟩

/-- C10 witness: instantiated on a concrete block and a concrete one-page
input. -/
theorem C10_no_heading_ever_witness :
    (get_block_semantic_type c2Block ≠ some "heading" ∧
      get_block_semantic_type c2Block ≠ some "subheading") ∧
    (c10El ∈ extract_elements_from_marker c10Input ∧ c10El.type ≠ "heading") ∧
    promoteTitle (extract_elements_from_marker c10Input) =
      extract_elements_from_marker c10Input :=
  ⟨C10_no_heading_ever.1 c2Block,
   ⟨by decide, C10_no_heading_ever.2.1 c10Input c10El (by decide)⟩,
   C10_no_heading_ever.2.2 c10Input⟩

end MarkerConv
